import Mathlib

/-!
# grpcurl `lib` package: composite descriptor source and the `GRPCurl` pipeline

A shallow embedding of `src/lib/grpcurl.go`.

* Go results `(value, error)` are pairs whose second component is an
  `Option`: `none` is the `nil` error.
* The external collaborators (descriptor sources, dialing, the request parser,
  `InvokeRPC`, the formatter) are parameters: a descriptor source is a record
  of its three methods, and a run of `GRPCurl` is evaluated in a `World` that
  fixes what each external call hands back.
* Effects of `GRPCurl` are recorded as a trace of `Event`s together with the
  way the process ended.
-/

namespace Grpcurl

/-! ## Descriptors and descriptor sources -/

/-- A Go `error` value that is not `nil`; only its text is kept. -/
structure GoError where
  msg : String
  deriving DecidableEq, Repr

/-- The part of `*desc.FieldDescriptor` the package looks at: the field number
(`GetNumber`, an `int32`) and the fully qualified name, which tells two
descriptors of the same number apart. -/
structure FieldDescriptor where
  number : Int
  fullName : String
  deriving DecidableEq, Repr

/-- Go `(*desc.FieldDescriptor).GetNumber`. -/
def FieldDescriptor.GetNumber (fd : FieldDescriptor) : Int := fd.number

/-- A `desc.Descriptor` as returned by `FindSymbol`; `none` stands for the nil
interface value. -/
structure Descriptor where
  fullyQualifiedName : String
  deriving DecidableEq, Repr

/-- The interface `grpcurl.DescriptorSource`: three methods, each returning a
value and an error. -/
structure DescriptorSource where
  ListServices : List String × Option GoError
  FindSymbol : String → Option Descriptor × Option GoError
  AllExtensionsForType : String → List FieldDescriptor × Option GoError

/-- Go `type compositeSource struct { reflection, file grpcurl.DescriptorSource }`. -/
structure compositeSource where
  reflection : DescriptorSource
  file : DescriptorSource

/-- Go `func (cs compositeSource) ListServices() ([]string, error)`. -/
def compositeSource.ListServices (cs : compositeSource) : List String × Option GoError :=
  cs.reflection.ListServices

/-- Go `func (cs compositeSource) FindSymbol(fullyQualifiedName string)`. -/
def compositeSource.FindSymbol (cs : compositeSource) (fullyQualifiedName : String) :
    Option Descriptor × Option GoError :=
  match cs.reflection.FindSymbol fullyQualifiedName with
  | (d, none) => (d, none)
  | (_, some _) => cs.file.FindSymbol fullyQualifiedName

/-- A Go `map[int32]bool`: reading a key that was never written gives `false`. -/
def TagMap : Type := Int → Bool

/-- Go `make(map[int32]bool)`. -/
def TagMap.make : TagMap := fun _ => false

/-- Go `tags[k] = v`. -/
def TagMap.set (tags : TagMap) (k : Int) (v : Bool) : TagMap :=
  fun j => if j = k then v else tags j

/-- The first loop of `AllExtensionsForType`:
`for _, ext := range exts { tags[ext.GetNumber()] = true }`. -/
def trackTags : TagMap → List FieldDescriptor → TagMap
  | tags, [] => tags
  | tags, ext :: rest => trackTags (tags.set ext.GetNumber true) rest

/-- The second loop of `AllExtensionsForType`:
`for _, ext := range fileExts { if !tags[ext.GetNumber()] { exts = append(exts, ext) } }`. -/
def appendFileExts (tags : TagMap) : List FieldDescriptor → List FieldDescriptor →
    List FieldDescriptor
  | exts, [] => exts
  | exts, ext :: rest =>
    if !tags ext.GetNumber then appendFileExts tags (exts ++ [ext]) rest
    else appendFileExts tags exts rest

/-- Go `func (cs compositeSource) AllExtensionsForType(typeName string)`. -/
def compositeSource.AllExtensionsForType (cs : compositeSource) (typeName : String) :
    List FieldDescriptor × Option GoError :=
  match cs.reflection.AllExtensionsForType typeName with
  | (_, some _) =>
    -- On error fall back to file source
    cs.file.AllExtensionsForType typeName
  | (exts, none) =>
    -- Track the tag numbers from the reflection source
    let tags := trackTags TagMap.make exts
    match cs.file.AllExtensionsForType typeName with
    | (_, some _) => (exts, none)
    | (fileExts, none) => (appendFileExts tags exts fileExts, none)

/-- A source whose extension lookup returns the given result for every type
name (its other methods find nothing). -/
def constSource (r : List FieldDescriptor × Option GoError)
    (s : Option Descriptor × Option GoError) : DescriptorSource :=
  { ListServices := ([], none), FindSymbol := fun _ => s, AllExtensionsForType := fun _ => r }

/-- A list of descriptors has no two elements with the same field number. -/
def DistinctNumbers (l : List FieldDescriptor) : Prop :=
  (l.map FieldDescriptor.GetNumber).Nodup

instance (l : List FieldDescriptor) : Decidable (DistinctNumbers l) := by
  unfold DistinctNumbers; infer_instance

/-! ## Package configuration -/

/-- Go `time.Second`: a `time.Duration` counts nanoseconds in an `int64`. -/
def time_Second : Int := 1000000000

/-- Two's-complement wrap-around of `int64` arithmetic. -/
def wrapInt64 (x : Int) : Int := (x + 2 ^ 63) % 2 ^ 64 - 2 ^ 63

/-- Go `var maxTime time.Duration = 30`. -/
def maxTime : Int := 30

/-- Go `var connectTimeout time.Duration = 30 * time.Second`. -/
def connectTimeout : Int := 30 * time_Second

/-- Go `const statusCodeOffset = 64`. -/
def statusCodeOffset : Int := 64

/-- Go `codes.OK`. -/
def codes_OK : Nat := 0

/-- Go `codes.NotFound`. -/
def codes_NotFound : Nat := 5

/-- Lines 71-76 of `GRPCurl`: the timeout handed to `context.WithTimeout` for
the whole call, `none` when no deadline is set. -/
def overallTimeout (maxTime : Int) : Option Int :=
  if maxTime > 0 then some (wrapInt64 (maxTime * time_Second)) else none

/-- Line 79 of `GRPCurl`: `dialTime := connectTimeout`, the timeout handed to
`context.WithTimeout` for dialing. -/
def dialTime (connectTimeout : Int) : Int := connectTimeout

/-! ## The external world of one `GRPCurl` call -/

/-- A non-nil `*grpc.ClientConn`. -/
structure ClientConn where
  id : Nat
  deriving DecidableEq, Repr

/-- A non-nil `*grpcreflect.Client`. -/
structure RefClient where
  id : Nat
  deriving DecidableEq, Repr

/-- A non-nil `*status.Status`; `code` is a `codes.Code` (a `uint32`, so
`statusCodeOffset + int(code)` stays inside Go's `int`). -/
structure Status where
  code : Nat
  message : String
  deriving DecidableEq, Repr

/-- Go `(*status.Status).Code`: a nil status reports `codes.OK`. -/
def Status.Code : Option Status → Nat
  | none => codes_OK
  | some s => s.code

/-- The `io.Reader` chosen at lines 284-289. -/
inductive InputReader
  | stdin
  | stringsReader (s : String)
  deriving DecidableEq, Repr

/-- A non-nil `grpcurl.RequestParser`; `NumRequests` is what the method of that
name reports after the invocation. -/
structure RequestParser where
  NumRequests : Int
  deriving DecidableEq, Repr

/-- A non-nil `grpcurl.Formatter`, applied to `stat.Proto()`. -/
def Formatter : Type := Option Status → String × Option GoError

/-- The fields of `grpcurl.DefaultEventHandler` read after `InvokeRPC`. -/
structure EventHandler where
  NumResponses : Int
  Status : Option Status
  deriving DecidableEq, Repr

/-- What the collaborators outside the file hand back during one call of
`GRPCurl`, together with the two package variables it reads. -/
structure World where
  /-- package variable `maxTime` -/
  maxTime : Int
  /-- package variable `connectTimeout` -/
  connectTimeout : Int
  /-- result of the `grpcurl.BlockingDial` call made at line 116 -/
  dialFirst : Option ClientConn × Option GoError
  /-- result of the `grpcurl.BlockingDial` call made at line 282 -/
  dialSecond : Option ClientConn × Option GoError
  /-- result of `grpcreflect.NewClientV1Alpha` -/
  newRefClient : RefClient
  /-- result of `grpcurl.RequestParserAndFormatter`; `none` is a nil interface
  or a nil function value -/
  RequestParserAndFormatter :
    InputReader → Option RequestParser × Option Formatter × Option GoError
  /-- result of `grpcurl.InvokeRPC` and the handler as the call leaves it -/
  InvokeRPC : Option GoError × EventHandler
  /-- Go `status.FromError` on a non-nil error -/
  status_FromError : GoError → Option Status × Bool

/-- The observable steps of a run. -/
inductive Event
  | withTimeout (d : Int)
  | cancel
  | blockingDial (target : String)
  | logFatalf
  | logPrintln (err : GoError)
  | requestParserAndFormatter
  | invokeRPC (symbol : String)
  | stdout (s : String)
  | stderr (s : String)
  | exitCalled (code : Int)
  | resetCalled
  | refClientReset (c : RefClient)
  | ccClose (c : ClientConn)
  | osExit (code : Int)
  | runtimePanic
  deriving DecidableEq, Repr

/-- How a run ends: the function returns, the process is ended by `os.Exit`,
or a run-time panic unwinds the function. -/
inductive Outcome
  | returned
  | exited (code : Int)
  | panicked
  deriving DecidableEq, Repr

/-- The trace of a run and the way it ended. -/
structure Run where
  trace : List Event
  outcome : Outcome
  deriving DecidableEq, Repr

/-- The variables `refClient` and `cc` captured by the closure `reset`. -/
structure Handles where
  refClient : Option RefClient
  cc : Option ClientConn
  deriving DecidableEq, Repr

/-! ## The closures of `GRPCurl` -/

/-- The closure `dial` (lines 78-100). The second component is `none` when
`log.Fatalf` ended the process, else the returned `*grpc.ClientConn`. -/
def dial (w : World) (target : String) (r : Option ClientConn × Option GoError) :
    List Event × Option (Option ClientConn) :=
  let dt := dialTime w.connectTimeout
  let evs := [Event.withTimeout dt, Event.blockingDial target]
  match r with
  | (_, some _) => (evs ++ [Event.logFatalf, Event.osExit 1], none)
  | (cc, none) => (evs ++ [Event.cancel], some cc)

/-- The closure `printFormattedStatus` (lines 101-107); `none` when calling a
nil formatter panics. -/
def printFormattedStatus (stat : Option Status) (formatter : Option Formatter) :
    Option (List Event) :=
  match formatter with
  | none => none
  | some f =>
    match f stat with
    | (formattedStatus, some err) =>
      some [Event.stderr ("ERROR: " ++ err.msg), Event.stderr formattedStatus]
    | (formattedStatus, none) => some [Event.stderr formattedStatus]

/-- The closure `reset` (lines 126-135): the handles afterwards and the
release calls made. -/
def reset (s : Handles) : Handles × List Event :=
  let r1 : Handles × List Event :=
    match s.refClient with
    | some c => ({ s with refClient := none }, [Event.refClientReset c])
    | none => (s, [])
  match r1.1.cc with
  | some c => ({ r1.1 with cc := none }, r1.2 ++ [Event.ccClose c])
  | none => r1

/-- The function assigned to `exit` at lines 137-141: `reset()` then
`os.Exit(code)`. -/
def exit (s : Handles) (code : Int) : List Event :=
  [Event.exitCalled code, Event.resetCalled] ++ (reset s).2 ++ [Event.osExit code]

/-- Leaving `GRPCurl` by return or by panic: the deferred calls run in
reverse order, `reset()` first, then the `cancel()` of line 75 if it was
deferred. -/
def runDeferred (s : Handles) (deferCancel : Bool) : List Event :=
  [Event.resetCalled] ++ (reset s).2 ++ (if deferCancel then [Event.cancel] else [])

/-- Lines 315-325: the summary line written to standard output. -/
def summaryLine (reqCount numResponses : Int) : String := Id.run do
  let mut reqSuffix := ""
  let mut respSuffix := ""
  if reqCount != 1 then
    reqSuffix := "s"
  if numResponses != 1 then
    respSuffix := "s"
  return "Sent " ++ toString reqCount ++ " request" ++ reqSuffix ++ " and received "
    ++ toString numResponses ++ " response" ++ respSuffix ++ "\n"

/-- Lines 306-314: the status held by the handler once the result of
`InvokeRPC` has been looked at, and the log line written if any. -/
def terminalStatus (w : World) : Option Status × List Event :=
  let formatError := true
  match w.InvokeRPC with
  | (none, h) => (h.Status, [])
  | (some err, h) =>
    match w.status_FromError err with
    | (errStatus, ok) =>
      if ok && formatError then (errStatus, []) else (h.Status, [Event.logPrintln err])

/-- Lines 301-334: the call of `InvokeRPC` with a non-nil request parser, the
summary line, and the exit on a status that is not OK. Entered with the trace
so far, the handles, and whether `cancel` is deferred. -/
def invokeAndReport (w : World) (symbol : String) (rf : RequestParser)
    (formatter : Option Formatter) (t : List Event) (s : Handles) (deferCancel : Bool) : Run :=
  let h := w.InvokeRPC.2
  let hStatus := (terminalStatus w).1
  let t := t ++ [Event.invokeRPC symbol] ++ (terminalStatus w).2 ++
    [Event.stdout (summaryLine rf.NumRequests h.NumResponses)]
  if Status.Code hStatus ≠ codes_OK then
    match printFormattedStatus hStatus formatter with
    | none =>
      { trace := t ++ [Event.runtimePanic] ++ runDeferred s deferCancel,
        outcome := Outcome.panicked }
    | some evs =>
      let code := statusCodeOffset + (Status.Code hStatus : Int)
      { trace := t ++ evs ++ exit s code, outcome := Outcome.exited code }
  else
    { trace := t ++ runDeferred s deferCancel, outcome := Outcome.returned }

/-- Lines 284-289: the reader the request is parsed from. -/
def inputReader (d : String) : InputReader :=
  if d = "@" then InputReader.stdin else InputReader.stringsReader d

/-- Lines 284-334, entered with a dereferenced `data` and the connection in
place: the parser and formatter are built, a failure is logged, and the call
at line 307 is made; evaluating its argument `rf.Next` on a nil parser
panics. -/
def parseAndInvoke (w : World) (symbol d : String)
    (t : List Event) (s : Handles) (deferCancel : Bool) : Run :=
  match w.RequestParserAndFormatter (inputReader d) with
  | (rf, formatter, err) =>
    let t := t ++ [Event.requestParserAndFormatter] ++
      (match err with
       | some e => [Event.logPrintln e]
       | none => [])
    match rf with
    | none =>
      { trace := t ++ [Event.runtimePanic] ++ runDeferred s deferCancel,
        outcome := Outcome.panicked }
    | some rf => invokeAndReport w symbol rf formatter t s deferCancel

/-- Lines 280-334: the branch of `GRPCurl` that invokes an RPC, entered with
the trace so far, the handles, and whether `cancel` is deferred. -/
def invoke (w : World) (target symbol : String) (data : Option String)
    (t : List Event) (s : Handles) (deferCancel : Bool) : Run :=
  -- if cc == nil { cc = dial() }
  let redial : List Event × Option (Option ClientConn) :=
    match s.cc with
    | none => dial w target w.dialSecond
    | some c => ([], some (some c))
  match redial with
  | (evs, none) => { trace := t ++ evs, outcome := Outcome.exited 1 }
  | (evs, some cc) =>
    let s : Handles := { s with cc := cc }
    let t := t ++ evs
    match data with
    | none =>
      -- *data with a nil pointer
      { trace := t ++ [Event.runtimePanic] ++ runDeferred s deferCancel,
        outcome := Outcome.panicked }
    | some d => parseAndInvoke w symbol d t s deferCancel

/-- Go `func GRPCurl(cmd, target, symbol string, data *string)`, run in the
world `w`. -/
def GRPCurl (w : World) (cmd target symbol : String) (data : Option String) : Run :=
  -- lines 70-76
  let deferCancel : Bool := decide (w.maxTime > 0)
  let t : List Event :=
    match overallTimeout w.maxTime with
    | some timeout => [Event.withTimeout timeout]
    | none => []
  -- line 116: cc = dial()
  match dial w target w.dialFirst with
  | (evs, none) => { trace := t ++ evs, outcome := Outcome.exited 1 }
  | (evs, some cc) =>
    -- lines 117-123: fileSource is nil, so descSource is the reflection source
    let s : Handles := { refClient := some w.newRefClient, cc := cc }
    let t := t ++ evs
    -- lines 126-141: defer reset(); exit = func(code) ...
    if cmd = "list" then
      { trace := t ++ runDeferred s deferCancel, outcome := Outcome.returned }
    else if cmd = "describe" then
      { trace := t ++ runDeferred s deferCancel, outcome := Outcome.returned }
    else
      invoke w target symbol data t s deferCancel

/-- The argument of a call of the `exit` function, if the event is one. -/
def exitArg : Event → Option Int
  | Event.exitCalled c => some c
  | _ => none

/-- The arguments of the calls of the `exit` function in a trace, in order. -/
def exitCalls (t : List Event) : List Int := t.filterMap exitArg

/-- The event is a call of `grpcurl.InvokeRPC`. -/
def isInvokeRPC : Event → Bool
  | Event.invokeRPC _ => true
  | _ => false

/-- `InvokeRPC` is called during the run. -/
def callsInvokeRPC (r : Run) : Bool := r.trace.any isInvokeRPC

/-- The event is not the end of the process by `os.Exit`. -/
def notOsExit : Event → Bool
  | Event.osExit _ => false
  | _ => true

/-- The events of a trace that come before the process is ended by `os.Exit`
(the whole trace when it is not). -/
def beforeExit (t : List Event) : List Event := t.takeWhile notOsExit

/-- The events that only set a call up or log: timeouts, cancellations, the
dial, the construction of the parser, a log line. -/
def isSetup : Event → Bool
  | Event.withTimeout _ => true
  | Event.cancel => true
  | Event.blockingDial _ => true
  | Event.requestParserAndFormatter => true
  | Event.logPrintln _ => true
  | _ => false

/-! ## Example worlds -/

/-- A formatter that renders a status by its code. -/
def exampleFormatter : Formatter := fun st =>
  match st with
  | some s => ("code " ++ s.message, none)
  | none => ("", none)

/-- Every collaborator succeeds and the call ends with no error and no
recorded status. -/
def okWorld : World :=
  { maxTime := maxTime
    connectTimeout := connectTimeout
    dialFirst := (some ⟨1⟩, none)
    dialSecond := (some ⟨2⟩, none)
    newRefClient := ⟨1⟩
    RequestParserAndFormatter := fun _ => (some ⟨1⟩, some exampleFormatter, none)
    InvokeRPC := (none, { NumResponses := 1, Status := none })
    status_FromError := fun e => (some ⟨2, e.msg⟩, false) }

/-- The server answers `NOT_FOUND`: `InvokeRPC` returns an error that is a
status of code 5. -/
def notFoundWorld : World :=
  { okWorld with
    InvokeRPC := (some ⟨"not found"⟩, { NumResponses := 0, Status := none })
    status_FromError := fun e => (some ⟨codes_NotFound, e.msg⟩, true) }

/-- The construction of the parser and formatter returns an error together
with a nil parser and a nil formatter. -/
def parserNilWorld : World :=
  { okWorld with
    RequestParserAndFormatter := fun _ => (none, none, some ⟨"unknown format"⟩) }

/-- Dialing the target fails. -/
def dialFailsWorld : World :=
  { okWorld with dialFirst := (none, some ⟨"connection refused"⟩) }

/-! ## Example sources -/

/-- Reflection knows extension 5 of the type. -/
def exampleReflection : DescriptorSource :=
  constSource ([⟨5, "refl.ext5"⟩], none) (some ⟨"refl.T"⟩, none)

/-- The file source knows extensions 5 and 7 of the type. -/
def exampleFile : DescriptorSource :=
  constSource ([⟨5, "file.ext5"⟩, ⟨7, "file.ext7"⟩], none) (some ⟨"file.T"⟩, none)

/-- A source every lookup of which fails. -/
def failingSource (m : String) : DescriptorSource :=
  constSource ([], some ⟨m⟩) (none, some ⟨m⟩)

/-- A file source that lists two extensions numbered 7. -/
def repeatingFile : DescriptorSource :=
  constSource ([⟨7, "a.ext7"⟩, ⟨7, "b.ext7"⟩], none) (none, some ⟨"not found"⟩)

/-- A reflection source that lists no extension. -/
def emptyReflection : DescriptorSource :=
  constSource ([], none) (none, some ⟨"not found"⟩)

/-! ## Lemmas on the two loops -/

theorem trackTags_apply (exts : List FieldDescriptor) (tags : TagMap) (k : Int) :
    trackTags tags exts k = (tags k || decide (k ∈ exts.map FieldDescriptor.GetNumber)) := by
  induction exts generalizing tags with
  | nil => simp [trackTags]
  | cons e rest ih =>
    simp only [trackTags, ih, TagMap.set, List.map_cons, List.mem_cons]
    by_cases h : k = e.GetNumber <;> simp [h]

theorem trackTags_make (exts : List FieldDescriptor) (k : Int) :
    trackTags TagMap.make exts k = decide (k ∈ exts.map FieldDescriptor.GetNumber) := by
  simp [trackTags_apply, TagMap.make]

theorem appendFileExts_eq (tags : TagMap) (fileExts exts : List FieldDescriptor) :
    appendFileExts tags exts fileExts
      = exts ++ fileExts.filter (fun e => !tags e.GetNumber) := by
  induction fileExts generalizing exts with
  | nil => simp [appendFileExts]
  | cons e rest ih =>
    by_cases h : tags e.GetNumber = true
    · simp [appendFileExts, ih, h, List.filter_cons]
    · simp [appendFileExts, ih, h, List.filter_cons]

theorem allExtensions_both_ok (cs : compositeSource) (typeName : String)
    (R F : List FieldDescriptor)
    (hR : cs.reflection.AllExtensionsForType typeName = (R, none))
    (hF : cs.file.AllExtensionsForType typeName = (F, none)) :
    cs.AllExtensionsForType typeName
      = (R ++ F.filter (fun e => decide (e.GetNumber ∉ R.map FieldDescriptor.GetNumber)),
          none) := by
  simp only [compositeSource.AllExtensionsForType, hR, hF, appendFileExts_eq]
  congr 2
  apply List.filter_congr
  intro e _
  rw [trackTags_make]
  by_cases h : e.GetNumber ∈ R.map FieldDescriptor.GetNumber
  · simp only [h, decide_True, Bool.not_true, not_true_eq_false, decide_False]
  · simp only [h, decide_False, Bool.not_false, not_false_eq_true, decide_True]

/-! ## Shape of a run -/

theorem terminalStatus_events (w : World) :
    (terminalStatus w).2 = [] ∨ ∃ e, (terminalStatus w).2 = [Event.logPrintln e] := by
  unfold terminalStatus
  rcases h1 : w.InvokeRPC with ⟨_ | err, h⟩
  · exact Or.inl rfl
  · rcases h2 : w.status_FromError err with ⟨st, _ | _⟩
    · exact Or.inr ⟨err, by simp [h2]⟩
    · exact Or.inl (by simp [h2])

theorem printFormattedStatus_events (stat : Option Status) (f : Formatter) :
    ∃ evs, printFormattedStatus stat (some f) = some evs ∧
      ∀ e ∈ evs, ∃ str, e = Event.stderr str := by
  unfold printFormattedStatus
  rcases h : f stat with ⟨str, _ | err⟩
  · exact ⟨[Event.stderr str], by simp only [h], by simp⟩
  · exact ⟨[Event.stderr ("ERROR: " ++ err.msg), Event.stderr str], by simp only [h], by simp⟩

theorem overallTimeout_setup (m : Int) :
    ∀ e ∈ (match overallTimeout m with
        | some timeout => [Event.withTimeout timeout]
        | none => []), isSetup e = true := by
  unfold overallTimeout
  split_ifs
  · intro e he
    simp only [List.mem_singleton] at he
    subst he
    rfl
  · intro e he
    simp at he

theorem setup_append {t u : List Event} (ht : ∀ e ∈ t, isSetup e = true)
    (hu : ∀ e ∈ u, isSetup e = true) : ∀ e ∈ t ++ u, isSetup e = true := by
  intro e he
  rcases List.mem_append.mp he with h | h
  · exact ht e h
  · exact hu e h

theorem parseAndInvoke_shape (w : World) (symbol d : String) (t : List Event) (s : Handles)
    (dc : Bool) (ht : ∀ e ∈ t, isSetup e = true) :
    ∃ pre, (∀ e ∈ pre, isSetup e = true) ∧
      (parseAndInvoke w symbol d t s dc
          = { trace := pre ++ [Event.runtimePanic] ++ runDeferred s dc,
              outcome := Outcome.panicked } ∨
        ∃ rf, (w.RequestParserAndFormatter (inputReader d)).1 = some rf ∧
          parseAndInvoke w symbol d t s dc
            = invokeAndReport w symbol rf (w.RequestParserAndFormatter (inputReader d)).2.1
                pre s dc) := by
  unfold parseAndInvoke
  rcases hpf : w.RequestParserAndFormatter (inputReader d) with ⟨_ | rf, fmt, _ | err⟩
  · exact ⟨t ++ [Event.requestParserAndFormatter] ++ [],
      setup_append (setup_append ht (by simp [isSetup])) (by simp), Or.inl rfl⟩
  · exact ⟨t ++ [Event.requestParserAndFormatter] ++ [Event.logPrintln err],
      setup_append (setup_append ht (by simp [isSetup])) (by simp [isSetup]), Or.inl rfl⟩
  · exact ⟨t ++ [Event.requestParserAndFormatter] ++ [],
      setup_append (setup_append ht (by simp [isSetup])) (by simp), Or.inr ⟨rf, rfl, rfl⟩⟩
  · exact ⟨t ++ [Event.requestParserAndFormatter] ++ [Event.logPrintln err],
      setup_append (setup_append ht (by simp [isSetup])) (by simp [isSetup]),
      Or.inr ⟨rf, rfl, rfl⟩⟩

theorem invoke_shape (w : World) (target symbol : String) (data : Option String)
    (t : List Event) (s : Handles) (dc : Bool) (ht : ∀ e ∈ t, isSetup e = true) :
    ∃ (pre : List Event) (s1 : Handles), (∀ e ∈ pre, isSetup e = true) ∧
      s1.refClient = s.refClient ∧ (∀ c, s.cc = some c → s1.cc = some c) ∧
      (invoke w target symbol data t s dc
          = { trace := pre ++ [Event.logFatalf, Event.osExit 1], outcome := Outcome.exited 1 } ∨
        invoke w target symbol data t s dc
          = { trace := pre ++ [Event.runtimePanic] ++ runDeferred s1 dc,
              outcome := Outcome.panicked } ∨
        ∃ d rf, data = some d ∧
          (w.RequestParserAndFormatter (inputReader d)).1 = some rf ∧
          invoke w target symbol data t s dc
            = invokeAndReport w symbol rf (w.RequestParserAndFormatter (inputReader d)).2.1
                pre s1 dc) := by
  have hdial : ∀ e ∈ [Event.withTimeout (dialTime w.connectTimeout),
      Event.blockingDial target], isSetup e = true := by simp [isSetup]
  have key : ∀ (u : List Event) (s1 : Handles), (∀ e ∈ u, isSetup e = true) →
      ∃ (pre : List Event), (∀ e ∈ pre, isSetup e = true) ∧
        ((match data with
            | none =>
              ({ trace := u ++ [Event.runtimePanic] ++ runDeferred s1 dc,
                 outcome := Outcome.panicked } : Run)
            | some d => parseAndInvoke w symbol d u s1 dc)
            = { trace := pre ++ [Event.runtimePanic] ++ runDeferred s1 dc,
                outcome := Outcome.panicked } ∨
          ∃ d rf, data = some d ∧
            (w.RequestParserAndFormatter (inputReader d)).1 = some rf ∧
            (match data with
              | none =>
                ({ trace := u ++ [Event.runtimePanic] ++ runDeferred s1 dc,
                   outcome := Outcome.panicked } : Run)
              | some d => parseAndInvoke w symbol d u s1 dc)
              = invokeAndReport w symbol rf (w.RequestParserAndFormatter (inputReader d)).2.1
                  pre s1 dc) := by
    intro u s1 hu
    rcases data with _ | d
    · exact ⟨u, hu, Or.inl rfl⟩
    · obtain ⟨pre, hpre, h | ⟨rf, h1, h2⟩⟩ := parseAndInvoke_shape w symbol d u s1 dc hu
      · exact ⟨pre, hpre, Or.inl h⟩
      · exact ⟨pre, hpre, Or.inr ⟨d, rf, rfl, h1, h2⟩⟩
  unfold invoke
  rcases s with ⟨r, _ | c⟩
  · rcases hd2 : w.dialSecond with ⟨cc2, _ | e2⟩
    · obtain ⟨pre, hpre, h⟩ := key
        (t ++ ([Event.withTimeout (dialTime w.connectTimeout), Event.blockingDial target]
          ++ [Event.cancel])) ⟨r, cc2⟩
        (setup_append ht (setup_append hdial (by simp [isSetup])))
      exact ⟨pre, ⟨r, cc2⟩, hpre, rfl, by simp, Or.inr h⟩
    · refine ⟨t ++ [Event.withTimeout (dialTime w.connectTimeout), Event.blockingDial target],
        ⟨r, none⟩, setup_append ht hdial, rfl, by simp, Or.inl ?_⟩
      simp [dial, List.append_assoc]
  · obtain ⟨pre, hpre, h⟩ := key (t ++ []) ⟨r, some c⟩ (by simpa using ht)
    exact ⟨pre, ⟨r, some c⟩, hpre, rfl, by simp, Or.inr h⟩

/-- Every run of `GRPCurl` has one of four shapes: a dial is fatal; the
function returns at once after events that only set the call up; a step
panics after such events; or the call reaches line 301 with a non-nil
parser. The handles `s` are those the closure `reset` sees. -/
theorem GRPCurl_shape (w : World) (cmd target symbol : String) (data : Option String) :
    ∃ (pre : List Event) (s : Handles), (∀ e ∈ pre, isSetup e = true) ∧
      s.refClient = some w.newRefClient ∧ (∀ c, w.dialFirst.1 = some c → s.cc = some c) ∧
      (GRPCurl w cmd target symbol data
          = { trace := pre ++ [Event.logFatalf, Event.osExit 1], outcome := Outcome.exited 1 } ∨
        GRPCurl w cmd target symbol data
          = { trace := pre ++ runDeferred s (decide (w.maxTime > 0)),
              outcome := Outcome.returned } ∨
        GRPCurl w cmd target symbol data
          = { trace := pre ++ [Event.runtimePanic] ++ runDeferred s (decide (w.maxTime > 0)),
              outcome := Outcome.panicked } ∨
        ∃ d rf, data = some d ∧
          (w.RequestParserAndFormatter (inputReader d)).1 = some rf ∧
          GRPCurl w cmd target symbol data
            = invokeAndReport w symbol rf (w.RequestParserAndFormatter (inputReader d)).2.1
                pre s (decide (w.maxTime > 0))) := by
  have hP := overallTimeout_setup w.maxTime
  have hdial : ∀ e ∈ [Event.withTimeout (dialTime w.connectTimeout),
      Event.blockingDial target], isSetup e = true := by simp [isSetup]
  unfold GRPCurl
  generalize (match overallTimeout w.maxTime with
        | some timeout => [Event.withTimeout timeout]
        | none => []) = P at hP
  rcases hd : w.dialFirst with ⟨cc, _ | e⟩
  · simp only [dial]
    have hQ := setup_append hP (setup_append hdial
      (show ∀ e ∈ [Event.cancel], isSetup e = true by simp [isSetup]))
    generalize P ++ ([Event.withTimeout (dialTime w.connectTimeout),
        Event.blockingDial target] ++ [Event.cancel]) = Q at hQ
    split_ifs with h1 h2
    · exact ⟨Q, ⟨some w.newRefClient, cc⟩, hQ, rfl, fun c hc => hc, Or.inr (Or.inl rfl)⟩
    · exact ⟨Q, ⟨some w.newRefClient, cc⟩, hQ, rfl, fun c hc => hc, Or.inr (Or.inl rfl)⟩
    · obtain ⟨pre, s1, hpre, hs1, hcc, h | h | h⟩ := invoke_shape w target symbol data Q
        ⟨some w.newRefClient, cc⟩ (decide (w.maxTime > 0)) hQ
      · exact ⟨pre, s1, hpre, hs1, hcc, Or.inl h⟩
      · exact ⟨pre, s1, hpre, hs1, hcc, Or.inr (Or.inr (Or.inl h))⟩
      · exact ⟨pre, s1, hpre, hs1, hcc, Or.inr (Or.inr (Or.inr h))⟩
  · refine ⟨P ++ [Event.withTimeout (dialTime w.connectTimeout), Event.blockingDial target],
      ⟨some w.newRefClient, cc⟩, setup_append hP hdial, rfl, fun c hc => hc, Or.inl ?_⟩
    simp [dial, List.append_assoc]

theorem invokeAndReport_trace_start (w : World) (symbol : String) (rf : RequestParser)
    (fmt : Option Formatter) (t : List Event) (s : Handles) (dc : Bool) :
    ∃ rest, (invokeAndReport w symbol rf fmt t s dc).trace = t ++ rest := by
  unfold invokeAndReport
  by_cases hc : Status.Code (terminalStatus w).1 = codes_OK
  · exact ⟨_, by simp only [hc, ne_eq, not_true_eq_false, if_false, List.append_assoc]; rfl⟩
  · rcases hp : printFormattedStatus (terminalStatus w).1 fmt with _ | evs
    · exact ⟨_, by simp only [hc, ne_eq, not_false_eq_true, if_true, hp, List.append_assoc]; rfl⟩
    · exact ⟨_, by simp only [hc, ne_eq, not_false_eq_true, if_true, hp, List.append_assoc]; rfl⟩

theorem parseAndInvoke_trace_start (w : World) (symbol d : String) (t : List Event)
    (s : Handles) (dc : Bool) :
    ∃ rest, (parseAndInvoke w symbol d t s dc).trace = t ++ rest := by
  unfold parseAndInvoke
  rcases w.RequestParserAndFormatter (inputReader d) with ⟨_ | rf, fmt, err⟩
  · exact ⟨_, by simp only [List.append_assoc]; rfl⟩
  · simp only []
    generalize (match err with
      | some e => [Event.logPrintln e]
      | none => []) = L
    obtain ⟨rest, hrest⟩ := invokeAndReport_trace_start w symbol rf fmt
      (t ++ [Event.requestParserAndFormatter] ++ L) s dc
    exact ⟨[Event.requestParserAndFormatter] ++ L ++ rest,
      by rw [hrest]; simp only [List.append_assoc]⟩

theorem invoke_trace_start (w : World) (target symbol : String) (data : Option String)
    (t : List Event) (s : Handles) (dc : Bool) :
    ∃ rest, (invoke w target symbol data t s dc).trace = t ++ rest := by
  have key : ∀ (u : List Event) (s1 : Handles),
      ∃ rest, (match data with
          | none =>
            ({ trace := t ++ u ++ [Event.runtimePanic] ++ runDeferred s1 dc,
               outcome := Outcome.panicked } : Run)
          | some d => parseAndInvoke w symbol d (t ++ u) s1 dc).trace = t ++ rest := by
    intro u s1
    rcases data with _ | d
    · exact ⟨_, by simp only [List.append_assoc]; rfl⟩
    · obtain ⟨rest, hrest⟩ := parseAndInvoke_trace_start w symbol d (t ++ u) s1 dc
      exact ⟨u ++ rest, by simp only [hrest, List.append_assoc]⟩
  unfold invoke
  rcases s with ⟨r, _ | c⟩
  · rcases hd2 : w.dialSecond with ⟨cc2, _ | e2⟩
    · exact key _ _
    · exact ⟨_, by simp only [dial, List.append_assoc]; rfl⟩
  · exact key _ _

theorem GRPCurl_trace_start (w : World) (cmd target symbol : String) (data : Option String) :
    ∃ rest, (GRPCurl w cmd target symbol data).trace
      = (match overallTimeout w.maxTime with
          | some timeout => [Event.withTimeout timeout]
          | none => [])
        ++ [Event.withTimeout (dialTime w.connectTimeout), Event.blockingDial target]
        ++ rest := by
  unfold GRPCurl
  generalize (match overallTimeout w.maxTime with
        | some timeout => [Event.withTimeout timeout]
        | none => []) = P
  rcases hd : w.dialFirst with ⟨cc, _ | e⟩
  · simp only [dial]
    split_ifs
    · exact ⟨[Event.cancel] ++ runDeferred ⟨some w.newRefClient, cc⟩ (decide (w.maxTime > 0)),
        by simp only [List.append_assoc]⟩
    · exact ⟨[Event.cancel] ++ runDeferred ⟨some w.newRefClient, cc⟩ (decide (w.maxTime > 0)),
        by simp only [List.append_assoc]⟩
    · obtain ⟨rest, hrest⟩ := invoke_trace_start w target symbol data
        (P ++ ([Event.withTimeout (dialTime w.connectTimeout), Event.blockingDial target]
          ++ [Event.cancel])) ⟨some w.newRefClient, cc⟩ (decide (w.maxTime > 0))
      exact ⟨[Event.cancel] ++ rest, by rw [hrest]; simp only [List.append_assoc]⟩
  · exact ⟨_, by simp only [dial, List.append_assoc]; rfl⟩

/-! ## Observations on traces -/

theorem setup_exitArg {e : Event} (h : isSetup e = true) : exitArg e = none := by
  cases e <;> simp_all [isSetup, exitArg]

theorem setup_isInvokeRPC {e : Event} (h : isSetup e = true) : isInvokeRPC e = false := by
  cases e <;> simp_all [isSetup, isInvokeRPC]

theorem setup_notOsExit {e : Event} (h : isSetup e = true) : notOsExit e = true := by
  cases e <;> simp_all [isSetup, notOsExit]

theorem exitCalls_append (a b : List Event) : exitCalls (a ++ b) = exitCalls a ++ exitCalls b := by
  simp [exitCalls]

theorem exitCalls_setup {t : List Event} (ht : ∀ e ∈ t, isSetup e = true) : exitCalls t = [] :=
  List.filterMap_eq_nil_iff.mpr (fun e he => setup_exitArg (ht e he))

theorem any_invokeRPC_setup {t : List Event} (ht : ∀ e ∈ t, isSetup e = true) :
    t.any isInvokeRPC = false := by
  rw [List.any_eq_false]
  intro e he
  simp [setup_isInvokeRPC (ht e he)]

theorem exitCalls_stderr {evs : List Event} (h : ∀ e ∈ evs, ∃ str, e = Event.stderr str) :
    exitCalls evs = [] := by
  refine List.filterMap_eq_nil_iff.mpr (fun e he => ?_)
  obtain ⟨str, rfl⟩ := h e he
  rfl

theorem exitCalls_terminalStatus (w : World) : exitCalls (terminalStatus w).2 = [] := by
  rcases terminalStatus_events w with h | ⟨e, h⟩ <;> rw [h] <;> rfl

theorem exitCalls_runDeferred (s : Handles) (dc : Bool) : exitCalls (runDeferred s dc) = [] := by
  rcases s with ⟨_ | r, _ | c⟩ <;> cases dc <;> rfl

theorem any_invokeRPC_runDeferred (s : Handles) (dc : Bool) :
    (runDeferred s dc).any isInvokeRPC = false := by
  rcases s with ⟨_ | r, _ | c⟩ <;> cases dc <;> rfl

theorem exitCalls_exit (s : Handles) (code : Int) : exitCalls (exit s code) = [code] := by
  rcases s with ⟨_ | r, _ | c⟩ <;> rfl

theorem mem_exitCalls {t : List Event} {c : Int} (h : Event.exitCalled c ∈ t) :
    c ∈ exitCalls t :=
  List.mem_filterMap.mpr ⟨_, h, rfl⟩

theorem report_notOsExit (w : World) (symbol x : String) (pre evs : List Event)
    (hpre : ∀ e ∈ pre, isSetup e = true) (hst : ∀ e ∈ evs, ∃ str, e = Event.stderr str) :
    ∀ e ∈ pre ++ [Event.invokeRPC symbol] ++ (terminalStatus w).2 ++ [Event.stdout x] ++ evs,
      notOsExit e = true := by
  intro e he
  simp only [List.mem_append, List.mem_singleton] at he
  rcases he with (((he | he) | he) | he) | he
  · exact setup_notOsExit (hpre e he)
  · subst he; rfl
  · rcases terminalStatus_events w with h | ⟨e1, h⟩
    · rw [h] at he; simp at he
    · rw [h] at he
      simp only [List.mem_singleton] at he
      subst he; rfl
  · subst he; rfl
  · obtain ⟨str, rfl⟩ := hst e he
    rfl

theorem beforeExit_exit (A : List Event) (s : Handles) (code : Int)
    (hA : ∀ e ∈ A, notOsExit e = true) :
    beforeExit (A ++ exit s code)
      = A ++ ([Event.exitCalled code, Event.resetCalled] ++ (reset s).2) := by
  unfold beforeExit
  rw [List.takeWhile_append_of_pos hA]
  rcases s with ⟨_ | r, _ | c⟩ <;> rfl

theorem mem_reset_refClient {s : Handles} {r : RefClient} (h : s.refClient = some r) :
    Event.refClientReset r ∈ (reset s).2 := by
  rcases s with ⟨_ | r1, _ | c⟩ <;> simp_all [reset]

theorem mem_reset_cc {s : Handles} {c : ClientConn} (h : s.cc = some c) :
    Event.ccClose c ∈ (reset s).2 := by
  rcases s with ⟨_ | r1, _ | c1⟩ <;> simp_all [reset]

theorem printFormattedStatus_some {stat : Option Status} {fmt : Option Formatter}
    {evs : List Event} (h : printFormattedStatus stat fmt = some evs) :
    ∀ e ∈ evs, ∃ str, e = Event.stderr str := by
  rcases fmt with _ | f
  · simp [printFormattedStatus] at h
  · obtain ⟨evs1, h1, h2⟩ := printFormattedStatus_events stat f
    rw [h1] at h
    cases h
    exact h2

theorem overallTimeout_events (m : Int) :
    (match overallTimeout m with
      | some timeout => [Event.withTimeout timeout]
      | none => []) = [] ∨
    ∃ d, (match overallTimeout m with
      | some timeout => [Event.withTimeout timeout]
      | none => []) = [Event.withTimeout d] := by
  unfold overallTimeout
  split_ifs
  · exact Or.inr ⟨_, rfl⟩
  · exact Or.inl rfl

theorem not_mem_runDeferred_construct (s : Handles) (dc : Bool) :
    Event.requestParserAndFormatter ∉ runDeferred s dc := by
  rcases s with ⟨_ | r, _ | c⟩ <;> cases dc <;> simp [runDeferred, reset]

theorem parseAndInvoke_parser_nil (w : World) (symbol d : String) (e : GoError)
    (t : List Event) (s : Handles) (dc : Bool)
    (herr : (w.RequestParserAndFormatter (inputReader d)).2.2 = some e)
    (hnil : (w.RequestParserAndFormatter (inputReader d)).1 = none) :
    parseAndInvoke w symbol d t s dc
      = { trace := t ++ [Event.requestParserAndFormatter, Event.logPrintln e,
            Event.runtimePanic] ++ runDeferred s dc,
          outcome := Outcome.panicked } := by
  unfold parseAndInvoke
  rcases hpf : w.RequestParserAndFormatter (inputReader d) with ⟨rf, fmt, err⟩
  rw [hpf] at herr hnil
  simp only at herr hnil
  subst herr
  subst hnil
  simp only [List.append_assoc, List.cons_append, List.nil_append]

theorem invoke_parser_nil (w : World) (target symbol d : String) (e : GoError)
    (t : List Event) (s : Handles) (dc : Bool)
    (herr : (w.RequestParserAndFormatter (inputReader d)).2.2 = some e)
    (hnil : (w.RequestParserAndFormatter (inputReader d)).1 = none)
    (ht : Event.requestParserAndFormatter ∉ t)
    (hreach : Event.requestParserAndFormatter ∈ (invoke w target symbol (some d) t s dc).trace) :
    ∃ (u : List Event) (s1 : Handles),
      invoke w target symbol (some d) t s dc
        = { trace := u ++ [Event.requestParserAndFormatter, Event.logPrintln e,
              Event.runtimePanic] ++ runDeferred s1 dc,
            outcome := Outcome.panicked } := by
  unfold invoke at hreach ⊢
  rcases s with ⟨r, _ | c⟩
  · rcases hd2 : w.dialSecond with ⟨cc2, _ | e2⟩
    · simp only [dial]
      exact ⟨_, _, parseAndInvoke_parser_nil w symbol d e _ _ dc herr hnil⟩
    · rw [hd2] at hreach
      simp only [dial, List.mem_append, List.mem_cons, List.mem_singleton,
        List.not_mem_nil, or_false] at hreach
      rcases hreach with h | h
      · exact absurd h ht
      · simp at h
  · exact ⟨_, _, parseAndInvoke_parser_nil w symbol d e _ _ dc herr hnil⟩

/-! ## Claims on the composite source -/

/-- C1, as stated, fails: with an empty reflection list and a file list holding
two descriptors numbered 7, both lookups succeed and the composite returns both
descriptors, two elements with the same field number. -/
theorem allExtensions_repeats_file_numbers :
    (emptyReflection.AllExtensionsForType "T").2 = none ∧
    (repeatingFile.AllExtensionsForType "T").2 = none ∧
    (compositeSource.AllExtensionsForType ⟨emptyReflection, repeatingFile⟩ "T")
      = ([⟨7, "a.ext7"⟩, ⟨7, "b.ext7"⟩], none) ∧
    ¬ DistinctNumbers
        (compositeSource.AllExtensionsForType ⟨emptyReflection, repeatingFile⟩ "T").1 := by
  refine ⟨rfl, rfl, ?_, ?_⟩
  · rw [allExtensions_both_ok _ "T" [] [⟨7, "a.ext7"⟩, ⟨7, "b.ext7"⟩] rfl rfl]
    simp
  · rw [allExtensions_both_ok _ "T" [] [⟨7, "a.ext7"⟩, ⟨7, "b.ext7"⟩] rfl rfl]
    simp [DistinctNumbers, FieldDescriptor.GetNumber]

/-- C1, amended: when both lookups succeed with lists `R` and `F` neither of
which repeats a field number, the list returned by
`compositeSource.AllExtensionsForType` has no two elements with the same field
number. -/
theorem allExtensions_distinct_numbers (cs : compositeSource) (typeName : String)
    (R F : List FieldDescriptor)
    (hR : cs.reflection.AllExtensionsForType typeName = (R, none))
    (hF : cs.file.AllExtensionsForType typeName = (F, none))
    (dR : DistinctNumbers R) (dF : DistinctNumbers F) :
    DistinctNumbers (cs.AllExtensionsForType typeName).1 := by
  rw [allExtensions_both_ok cs typeName R F hR hF]
  unfold DistinctNumbers at *
  simp only [List.map_append]
  rw [List.nodup_append]
  refine ⟨dR, ?_, ?_⟩
  · exact dF.sublist (List.Sublist.map _ (List.filter_sublist _))
  · intro k hk hk2
    rw [List.mem_map] at hk2
    obtain ⟨e, he, rfl⟩ := hk2
    rw [List.mem_filter] at he
    simp only [decide_eq_true_eq] at he
    exact he.2 hk

theorem allExtensions_distinct_numbers_witness :
    exampleReflection.AllExtensionsForType "T" = ([⟨5, "refl.ext5"⟩], none) ∧
    exampleFile.AllExtensionsForType "T" = ([⟨5, "file.ext5"⟩, ⟨7, "file.ext7"⟩], none) ∧
    DistinctNumbers [⟨5, "refl.ext5"⟩] ∧
    DistinctNumbers [⟨5, "file.ext5"⟩, ⟨7, "file.ext7"⟩] ∧
    DistinctNumbers
      (compositeSource.AllExtensionsForType ⟨exampleReflection, exampleFile⟩ "T").1 :=
  ⟨rfl, rfl, by decide, by decide,
    allExtensions_distinct_numbers ⟨exampleReflection, exampleFile⟩ "T" _ _ rfl rfl
      (by decide) (by decide)⟩

/-- C2: when both lookups succeed with `R` (reflection) and `F` (file), the
composite returns, with no error, `R` followed by the elements of `F`, in the
order of `F`, whose field number is not a field number of `R`; so `R` is an
initial segment of the result. -/
theorem allExtensions_merge (cs : compositeSource) (typeName : String)
    (R F : List FieldDescriptor)
    (hR : cs.reflection.AllExtensionsForType typeName = (R, none))
    (hF : cs.file.AllExtensionsForType typeName = (F, none)) :
    cs.AllExtensionsForType typeName
      = (R ++ F.filter (fun e => decide (e.GetNumber ∉ R.map FieldDescriptor.GetNumber)),
          none) ∧
    R <+: (cs.AllExtensionsForType typeName).1 := by
  rw [allExtensions_both_ok cs typeName R F hR hF]
  exact ⟨rfl, List.prefix_append _ _⟩

theorem allExtensions_merge_witness :
    exampleReflection.AllExtensionsForType "T" = ([⟨5, "refl.ext5"⟩], none) ∧
    exampleFile.AllExtensionsForType "T" = ([⟨5, "file.ext5"⟩, ⟨7, "file.ext7"⟩], none) ∧
    compositeSource.AllExtensionsForType ⟨exampleReflection, exampleFile⟩ "T"
      = ([⟨5, "refl.ext5"⟩, ⟨7, "file.ext7"⟩], none) ∧
    (compositeSource.AllExtensionsForType ⟨exampleReflection, exampleFile⟩ "T").1.length = 2 := by
  have h := allExtensions_merge ⟨exampleReflection, exampleFile⟩ "T"
    [⟨5, "refl.ext5"⟩] [⟨5, "file.ext5"⟩, ⟨7, "file.ext7"⟩] rfl rfl
  have e : compositeSource.AllExtensionsForType ⟨exampleReflection, exampleFile⟩ "T"
      = ([⟨5, "refl.ext5"⟩, ⟨7, "file.ext7"⟩], none) := by
    rw [h.1]
    simp [FieldDescriptor.GetNumber]
  exact ⟨rfl, rfl, e, by rw [e]; rfl⟩

/-- C3: `compositeSource.FindSymbol` returns the reflection source's descriptor
with no error when the reflection lookup succeeds, and returns exactly the file
source's result (descriptor and error) when the reflection lookup returns an
error. -/
theorem findSymbol_reflection_first (cs : compositeSource) (name : String) :
    (∀ d, cs.reflection.FindSymbol name = (d, none) → cs.FindSymbol name = (d, none)) ∧
    (∀ d e, cs.reflection.FindSymbol name = (d, some e) →
      cs.FindSymbol name = cs.file.FindSymbol name) := by
  constructor
  · intro d h
    simp [compositeSource.FindSymbol, h]
  · intro d e h
    simp [compositeSource.FindSymbol, h]

theorem findSymbol_reflection_first_witness :
    (exampleReflection.FindSymbol "pkg.T" = (some ⟨"refl.T"⟩, none) ∧
      compositeSource.FindSymbol ⟨exampleReflection, exampleFile⟩ "pkg.T"
        = (some ⟨"refl.T"⟩, none)) ∧
    ((failingSource "unreachable").FindSymbol "pkg.T" = (none, some ⟨"unreachable"⟩) ∧
      compositeSource.FindSymbol ⟨failingSource "unreachable", exampleFile⟩ "pkg.T"
        = (some ⟨"file.T"⟩, none)) ∧
    compositeSource.FindSymbol ⟨failingSource "unreachable", failingSource "no file"⟩ "pkg.T"
        = (none, some ⟨"no file"⟩) :=
  ⟨⟨rfl, (findSymbol_reflection_first ⟨exampleReflection, exampleFile⟩ "pkg.T").1 _ rfl⟩,
   ⟨rfl, (findSymbol_reflection_first ⟨failingSource "unreachable", exampleFile⟩ "pkg.T").2
      _ _ rfl⟩,
   (findSymbol_reflection_first
      ⟨failingSource "unreachable", failingSource "no file"⟩ "pkg.T").2 _ _ rfl⟩

/-- C4: `compositeSource.AllExtensionsForType` (a) returns exactly the file
source's result when the reflection lookup returns an error, (b) returns the
reflection list with a nil error when reflection succeeds and the file lookup
returns an error; hence it returns an error only if both sources do. -/
theorem allExtensions_fallback (cs : compositeSource) (typeName : String) :
    (∀ l e, cs.reflection.AllExtensionsForType typeName = (l, some e) →
      cs.AllExtensionsForType typeName = cs.file.AllExtensionsForType typeName) ∧
    (∀ R l e, cs.reflection.AllExtensionsForType typeName = (R, none) →
      cs.file.AllExtensionsForType typeName = (l, some e) →
      cs.AllExtensionsForType typeName = (R, none)) ∧
    ((cs.AllExtensionsForType typeName).2 ≠ none →
      (cs.reflection.AllExtensionsForType typeName).2 ≠ none ∧
      (cs.file.AllExtensionsForType typeName).2 ≠ none) := by
  refine ⟨?_, ?_, ?_⟩
  · intro l e h
    simp [compositeSource.AllExtensionsForType, h]
  · intro R l e h h2
    simp [compositeSource.AllExtensionsForType, h, h2]
  · intro h
    unfold compositeSource.AllExtensionsForType at h
    rcases hr : cs.reflection.AllExtensionsForType typeName with ⟨R, _ | e⟩
    · rcases hf : cs.file.AllExtensionsForType typeName with ⟨F, _ | e2⟩ <;>
        simp [hr, hf] at h
    · rw [hr] at h
      exact ⟨by simp, by simpa using h⟩

theorem allExtensions_fallback_witness :
    ((failingSource "unreachable").AllExtensionsForType "T" = ([], some ⟨"unreachable"⟩) ∧
      compositeSource.AllExtensionsForType ⟨failingSource "unreachable", exampleFile⟩ "T"
        = ([⟨5, "file.ext5"⟩, ⟨7, "file.ext7"⟩], none)) ∧
    (exampleReflection.AllExtensionsForType "T" = ([⟨5, "refl.ext5"⟩], none) ∧
      (failingSource "no file").AllExtensionsForType "T" = ([], some ⟨"no file"⟩) ∧
      compositeSource.AllExtensionsForType ⟨exampleReflection, failingSource "no file"⟩ "T"
        = ([⟨5, "refl.ext5"⟩], none)) ∧
    (compositeSource.AllExtensionsForType
        ⟨failingSource "unreachable", failingSource "no file"⟩ "T").2 = some ⟨"no file"⟩ :=
  ⟨⟨rfl, (allExtensions_fallback ⟨failingSource "unreachable", exampleFile⟩ "T").1 _ _ rfl⟩,
   ⟨rfl, rfl,
    (allExtensions_fallback ⟨exampleReflection, failingSource "no file"⟩ "T").2.1 _ _ _
      rfl rfl⟩,
   by rw [(allExtensions_fallback
        ⟨failingSource "unreachable", failingSource "no file"⟩ "T").1 _ _ rfl]; rfl⟩

/-! ## Claims on the invocation pipeline: exit code -/

/-- C5: in a run that calls `InvokeRPC`, with a formatter that is not nil, let
`c` be the code of the status the handler holds after the call (the status of
the error of `InvokeRPC` when that error is a status, else the recorded one).
If `c` is not OK the `exit` function is called exactly once, with `64 + c`,
and the process ends with that code; if `c` is OK it is not called and
`GRPCurl` returns. -/
theorem exit_code_law (w : World) (cmd target symbol : String) (data : Option String)
    (hcall : callsInvokeRPC (GRPCurl w cmd target symbol data) = true)
    (hfmt : ∀ i, (w.RequestParserAndFormatter i).2.1 ≠ none) :
    (terminalStatus w).1
      = (match w.InvokeRPC.1 with
          | some err =>
            if (w.status_FromError err).2 = true then (w.status_FromError err).1
            else w.InvokeRPC.2.Status
          | none => w.InvokeRPC.2.Status) ∧
    (Status.Code (terminalStatus w).1 ≠ codes_OK →
      exitCalls (GRPCurl w cmd target symbol data).trace
        = [64 + (Status.Code (terminalStatus w).1 : Int)] ∧
      (GRPCurl w cmd target symbol data).outcome
        = Outcome.exited (64 + (Status.Code (terminalStatus w).1 : Int))) ∧
    (Status.Code (terminalStatus w).1 = codes_OK →
      exitCalls (GRPCurl w cmd target symbol data).trace = [] ∧
      (GRPCurl w cmd target symbol data).outcome = Outcome.returned) := by
  refine ⟨?_, ?_⟩
  · unfold terminalStatus
    rcases h1 : w.InvokeRPC with ⟨_ | err, h⟩
    · rfl
    · rcases h2 : w.status_FromError err with ⟨st, _ | _⟩ <;> simp [h2]
  obtain ⟨pre, s, hpre, -, -, h | h | h | ⟨d, rf, -, -, h⟩⟩ :=
    GRPCurl_shape w cmd target symbol data
  · rw [h] at hcall
    simp [callsInvokeRPC, any_invokeRPC_setup hpre, isInvokeRPC] at hcall
  · rw [h] at hcall
    simp [callsInvokeRPC, any_invokeRPC_setup hpre, any_invokeRPC_runDeferred] at hcall
  · rw [h] at hcall
    simp [callsInvokeRPC, any_invokeRPC_setup hpre, any_invokeRPC_runDeferred,
      isInvokeRPC] at hcall
  · rw [h]
    unfold invokeAndReport
    constructor
    · intro hc
      rcases hf : (w.RequestParserAndFormatter (inputReader d)).2.1 with _ | f
      · exact absurd hf (hfmt _)
      · obtain ⟨evs, hevs, hst⟩ := printFormattedStatus_events (terminalStatus w).1 f
        simp only [hc, ne_eq, not_false_eq_true, if_true, hevs, exitCalls_append,
          exitCalls_setup hpre, exitCalls_terminalStatus, exitCalls_stderr hst,
          exitCalls_exit, statusCodeOffset]
        exact ⟨rfl, trivial⟩
    · intro hc
      simp only [hc, ne_eq, not_true_eq_false, if_false, exitCalls_append,
        exitCalls_setup hpre, exitCalls_terminalStatus, exitCalls_runDeferred]
      exact ⟨rfl, trivial⟩

theorem exit_code_law_witness :
    callsInvokeRPC (GRPCurl notFoundWorld "invoke" "localhost:50051" "pkg.Svc/Get"
      (some "@")) = true ∧
    (∀ i, (notFoundWorld.RequestParserAndFormatter i).2.1 ≠ none) ∧
    Status.Code (terminalStatus notFoundWorld).1 = 5 ∧
    exitCalls (GRPCurl notFoundWorld "invoke" "localhost:50051" "pkg.Svc/Get"
      (some "@")).trace = [69] ∧
    (GRPCurl notFoundWorld "invoke" "localhost:50051" "pkg.Svc/Get" (some "@")).outcome
      = Outcome.exited 69 :=
  ⟨by decide, fun _ => by simp [notFoundWorld, okWorld], by decide,
   ((exit_code_law notFoundWorld "invoke" "localhost:50051" "pkg.Svc/Get" (some "@")
      (by decide) (fun _ => by simp [notFoundWorld, okWorld])).2.1 (by decide)).1,
   ((exit_code_law notFoundWorld "invoke" "localhost:50051" "pkg.Svc/Get" (some "@")
      (by decide) (fun _ => by simp [notFoundWorld, okWorld])).2.1 (by decide)).2⟩

/-! ## Claims on the reporter and on the cleanup closure -/

/-- C6: the summary line is `Sent n request<rs> and received m response<ps>`,
where `rs` is empty exactly when `n = 1` and is `s` otherwise, and `ps` is empty
exactly when `m = 1` and is `s` otherwise; `rs` depends on `n` alone and `ps` on
`m` alone. Every run that calls `InvokeRPC` prints this line for the count of
requests of the parser and the count of responses of the handler. -/
theorem summaryLine_pluralization :
    (∀ n m : Int,
      summaryLine n m
        = "Sent " ++ toString n ++ " request" ++ (if n = 1 then "" else "s")
            ++ " and received " ++ toString m ++ " response" ++ (if m = 1 then "" else "s")
            ++ "\n" ∧
      (((if n = 1 then "" else "s") = "") ↔ n = 1) ∧
      (((if m = 1 then "" else "s") = "") ↔ m = 1)) ∧
    (∀ (w : World) (cmd target symbol : String) (data : Option String),
      callsInvokeRPC (GRPCurl w cmd target symbol data) = true →
      ∃ d rf, data = some d ∧ (w.RequestParserAndFormatter (inputReader d)).1 = some rf ∧
        Event.stdout (summaryLine rf.NumRequests w.InvokeRPC.2.NumResponses)
          ∈ (GRPCurl w cmd target symbol data).trace) := by
  constructor
  · intro n m
    refine ⟨?_, ?_, ?_⟩
    · by_cases hn : n = 1 <;> by_cases hm : m = 1 <;> simp [summaryLine, Id.run, hn, hm]
    · by_cases hn : n = 1 <;> simp [hn]
    · by_cases hm : m = 1 <;> simp [hm]
  · intro w cmd target symbol data hcall
    obtain ⟨pre, s, hpre, -, -, h | h | h | ⟨d, rf, hd, hrf, h⟩⟩ :=
      GRPCurl_shape w cmd target symbol data
    · rw [h] at hcall
      simp [callsInvokeRPC, any_invokeRPC_setup hpre, isInvokeRPC] at hcall
    · rw [h] at hcall
      simp [callsInvokeRPC, any_invokeRPC_setup hpre, any_invokeRPC_runDeferred] at hcall
    · rw [h] at hcall
      simp [callsInvokeRPC, any_invokeRPC_setup hpre, any_invokeRPC_runDeferred,
        isInvokeRPC] at hcall
    · refine ⟨d, rf, hd, hrf, ?_⟩
      rw [h]
      unfold invokeAndReport
      by_cases hc : Status.Code (terminalStatus w).1 = codes_OK
      · simp [hc]
      · rcases hp : printFormattedStatus (terminalStatus w).1
            (w.RequestParserAndFormatter (inputReader d)).2.1 with _ | evs <;>
          simp [hc, hp]

theorem summaryLine_pluralization_witness :
    summaryLine 0 2 = "Sent 0 requests and received 2 responses\n" ∧
    summaryLine 1 1 = "Sent 1 request and received 1 response\n" ∧
    callsInvokeRPC (GRPCurl okWorld "invoke" "localhost:50051" "pkg.Svc/Get" (some "null"))
      = true ∧
    Event.stdout (summaryLine 1 1)
      ∈ (GRPCurl okWorld "invoke" "localhost:50051" "pkg.Svc/Get" (some "null")).trace := by
  refine ⟨?_, ?_, by decide, ?_⟩
  · rw [(summaryLine_pluralization.1 0 2).1]
    decide
  · rw [(summaryLine_pluralization.1 1 1).1]
    decide
  · obtain ⟨d, rf, -, hrf, hmem⟩ := summaryLine_pluralization.2 okWorld "invoke"
      "localhost:50051" "pkg.Svc/Get" (some "null") (by decide)
    have hrf1 : rf = ⟨1⟩ := by
      have : (okWorld.RequestParserAndFormatter (inputReader d)).1 = some ⟨1⟩ := rfl
      rw [this] at hrf
      cases hrf
      rfl
    rw [hrf1] at hmem
    exact hmem

/-- C7: running `reset` twice leaves the state that running it once leaves,
both handles nil; the second run makes no release call, so over the two runs
`refClient.Reset` and `cc.Close` are each called at most once. -/
theorem reset_idempotent (s : Handles) :
    (reset (reset s).1).1 = (reset s).1 ∧
    (reset s).1 = { refClient := none, cc := none } ∧
    (reset (reset s).1).2 = [] ∧
    (reset s).2 ++ (reset (reset s).1).2 = (reset s).2 ∧
    (((reset s).2 ++ (reset (reset s).1).2).filter
        (fun e => match e with
          | Event.refClientReset _ => true
          | _ => false)).length ≤ 1 ∧
    (((reset s).2 ++ (reset (reset s).1).2).filter
        (fun e => match e with
          | Event.ccClose _ => true
          | _ => false)).length ≤ 1 := by
  rcases s with ⟨_ | r, _ | c⟩ <;> simp [reset]

/-! ## Claims on the invocation pipeline: errors and cleanup -/

/-- C8: in a run that reaches the construction of the request parser and
formatter, when that construction returns an error (and, as an error result
does, a nil parser), the error is logged and `InvokeRPC` is not called: the
run stops at line 307, where evaluating `rf.Next` on the nil parser panics. -/
theorem parser_error_stops_pipeline (w : World) (cmd target symbol d : String) (e : GoError)
    (hreach : Event.requestParserAndFormatter
      ∈ (GRPCurl w cmd target symbol (some d)).trace)
    (herr : (w.RequestParserAndFormatter (inputReader d)).2.2 = some e)
    (hnil : ∀ i, (w.RequestParserAndFormatter i).2.2 ≠ none →
      (w.RequestParserAndFormatter i).1 = none) :
    Event.logPrintln e ∈ (GRPCurl w cmd target symbol (some d)).trace ∧
    callsInvokeRPC (GRPCurl w cmd target symbol (some d)) = false ∧
    (GRPCurl w cmd target symbol (some d)).outcome = Outcome.panicked := by
  have hn : (w.RequestParserAndFormatter (inputReader d)).1 = none :=
    hnil _ (by rw [herr]; simp)
  have hrun : ∃ (u : List Event) (s1 : Handles),
      GRPCurl w cmd target symbol (some d)
        = { trace := u ++ [Event.requestParserAndFormatter, Event.logPrintln e,
              Event.runtimePanic] ++ runDeferred s1 (decide (w.maxTime > 0)),
            outcome := Outcome.panicked } := by
    have hP := overallTimeout_events w.maxTime
    unfold GRPCurl at hreach ⊢
    generalize (match overallTimeout w.maxTime with
          | some timeout => [Event.withTimeout timeout]
          | none => []) = P at hP hreach ⊢
    have hPn : Event.requestParserAndFormatter ∉ P := by
      rcases hP with h | ⟨x, h⟩ <;> simp [h]
    rcases hd : w.dialFirst with ⟨cc, _ | e1⟩
    · rw [hd] at hreach
      simp only [dial] at hreach ⊢
      have hQ : Event.requestParserAndFormatter ∉
          P ++ ([Event.withTimeout (dialTime w.connectTimeout), Event.blockingDial target]
            ++ [Event.cancel]) := by
        simp [hPn]
      split_ifs at hreach ⊢ with h1 h2
      · rcases List.mem_append.mp hreach with h | h
        · exact absurd h hQ
        · exact absurd h (not_mem_runDeferred_construct _ _)
      · rcases List.mem_append.mp hreach with h | h
        · exact absurd h hQ
        · exact absurd h (not_mem_runDeferred_construct _ _)
      · exact invoke_parser_nil w target symbol d e _ _ _ herr hn hQ hreach
    · rw [hd] at hreach
      simp only [dial, List.mem_append, List.mem_cons, List.mem_singleton,
        List.not_mem_nil, or_false] at hreach
      rcases hreach with h | h
      · exact absurd h hPn
      · simp at h
  obtain ⟨u, s1, hrun⟩ := hrun
  refine ⟨?_, ?_, ?_⟩
  · rw [hrun]
    simp
  · obtain ⟨pre, s, hpre, -, -, h | h | h | ⟨d1, rf, hd1, hrf, -⟩⟩ :=
      GRPCurl_shape w cmd target symbol (some d)
    · rw [h]
      simp [callsInvokeRPC, any_invokeRPC_setup hpre, isInvokeRPC]
    · rw [h]
      simp [callsInvokeRPC, any_invokeRPC_setup hpre, any_invokeRPC_runDeferred]
    · rw [h]
      simp [callsInvokeRPC, any_invokeRPC_setup hpre, any_invokeRPC_runDeferred,
        isInvokeRPC]
    · cases hd1
      rw [hn] at hrf
      cases hrf
  · rw [hrun]

theorem parser_error_stops_pipeline_witness :
    Event.requestParserAndFormatter
      ∈ (GRPCurl parserNilWorld "invoke" "localhost:50051" "pkg.Svc/Get" (some "null")).trace ∧
    (parserNilWorld.RequestParserAndFormatter (inputReader "null")).2.2
      = some ⟨"unknown format"⟩ ∧
    (∀ i, (parserNilWorld.RequestParserAndFormatter i).2.2 ≠ none →
      (parserNilWorld.RequestParserAndFormatter i).1 = none) ∧
    Event.logPrintln ⟨"unknown format"⟩
      ∈ (GRPCurl parserNilWorld "invoke" "localhost:50051" "pkg.Svc/Get" (some "null")).trace ∧
    callsInvokeRPC (GRPCurl parserNilWorld "invoke" "localhost:50051" "pkg.Svc/Get"
      (some "null")) = false ∧
    (GRPCurl parserNilWorld "invoke" "localhost:50051" "pkg.Svc/Get" (some "null")).outcome
      = Outcome.panicked :=
  ⟨by decide, rfl, fun _ _ => rfl,
   parser_error_stops_pipeline parserNilWorld "invoke" "localhost:50051" "pkg.Svc/Get" "null"
     ⟨"unknown format"⟩ (by decide) rfl (fun _ _ => rfl)⟩

/-- C9, as stated, fails on the fatal path: when dialing fails the process is
ended by `log.Fatalf` and `reset` is not run. -/
theorem fatal_dial_skips_reset :
    GRPCurl dialFailsWorld "invoke" "localhost:50051" "pkg.Svc/Get" (some "null")
      = { trace := [Event.withTimeout 30000000000, Event.withTimeout 30000000000,
            Event.blockingDial "localhost:50051", Event.logFatalf, Event.osExit 1],
          outcome := Outcome.exited 1 } ∧
    Event.resetCalled ∉
      (GRPCurl dialFailsWorld "invoke" "localhost:50051" "pkg.Svc/Get" (some "null")).trace := by
  constructor <;> decide

/-- C9, amended: when `GRPCurl` returns, `reset` has run and released the
reflection client and the connection dialed first; when the `exit` function is
called, `reset` runs and releases them before `os.Exit` ends the process; when
the first dial fails, `log.Fatalf` ends the process with code 1 and `reset` is
not run. -/
theorem cleanup_paths (w : World) (cmd target symbol : String) (data : Option String) :
    ((GRPCurl w cmd target symbol data).outcome = Outcome.returned →
      Event.resetCalled ∈ (GRPCurl w cmd target symbol data).trace ∧
      Event.refClientReset w.newRefClient ∈ (GRPCurl w cmd target symbol data).trace ∧
      ∀ c, w.dialFirst.1 = some c →
        Event.ccClose c ∈ (GRPCurl w cmd target symbol data).trace) ∧
    (∀ code, Event.exitCalled code ∈ (GRPCurl w cmd target symbol data).trace →
      (GRPCurl w cmd target symbol data).outcome = Outcome.exited code ∧
      Event.resetCalled ∈ beforeExit (GRPCurl w cmd target symbol data).trace ∧
      Event.refClientReset w.newRefClient
        ∈ beforeExit (GRPCurl w cmd target symbol data).trace ∧
      ∀ c, w.dialFirst.1 = some c →
        Event.ccClose c ∈ beforeExit (GRPCurl w cmd target symbol data).trace) ∧
    (w.dialFirst.2 ≠ none →
      (GRPCurl w cmd target symbol data).outcome = Outcome.exited 1 ∧
      Event.logFatalf ∈ (GRPCurl w cmd target symbol data).trace ∧
      Event.resetCalled ∉ (GRPCurl w cmd target symbol data).trace) := by
  have hmemD : ∀ (pre : List Event) (s : Handles) (dc : Bool),
      s.refClient = some w.newRefClient → (∀ c, w.dialFirst.1 = some c → s.cc = some c) →
      Event.resetCalled ∈ pre ++ runDeferred s dc ∧
      Event.refClientReset w.newRefClient ∈ pre ++ runDeferred s dc ∧
      ∀ c, w.dialFirst.1 = some c → Event.ccClose c ∈ pre ++ runDeferred s dc := by
    intro pre s dc hs hcc
    refine ⟨?_, ?_, ?_⟩
    · simp [runDeferred]
    · have := mem_reset_refClient hs
      simp [runDeferred, this]
    · intro c hc
      have := mem_reset_cc (hcc c hc)
      simp [runDeferred, this]
  refine ⟨?_, ?_, ?_⟩
  · intro hret
    obtain ⟨pre, s, hpre, hs, hcc, h | h | h | ⟨d, rf, -, -, h⟩⟩ :=
      GRPCurl_shape w cmd target symbol data
    · rw [h] at hret; cases hret
    · rw [h]; exact hmemD pre s _ hs hcc
    · rw [h] at hret; cases hret
    · rw [h] at hret ⊢
      unfold invokeAndReport at hret ⊢
      by_cases hc : Status.Code (terminalStatus w).1 = codes_OK
      · simp only [hc, ne_eq, not_true_eq_false, if_false]
        exact hmemD _ s _ hs hcc
      · rcases hp : printFormattedStatus (terminalStatus w).1
            (w.RequestParserAndFormatter (inputReader d)).2.1 with _ | evs
        · simp only [hc, ne_eq, not_false_eq_true, if_true, hp] at hret
          cases hret
        · simp only [hc, ne_eq, not_false_eq_true, if_true, hp] at hret
          cases hret
  · intro code hmem
    have hcode := mem_exitCalls hmem
    obtain ⟨pre, s, hpre, hs, hcc, h | h | h | ⟨d, rf, -, -, h⟩⟩ :=
      GRPCurl_shape w cmd target symbol data
    · rw [h] at hcode
      simp only [exitCalls_append, exitCalls_setup hpre] at hcode
      simp [exitCalls, exitArg] at hcode
    · rw [h] at hcode
      simp [exitCalls_append, exitCalls_setup hpre, exitCalls_runDeferred] at hcode
    · rw [h] at hcode
      simp only [exitCalls_append, exitCalls_setup hpre, exitCalls_runDeferred] at hcode
      simp [exitCalls, exitArg] at hcode
    · rw [h] at hcode ⊢
      unfold invokeAndReport at hcode ⊢
      by_cases hc : Status.Code (terminalStatus w).1 = codes_OK
      · simp only [hc, ne_eq, not_true_eq_false, if_false, exitCalls_append,
          exitCalls_setup hpre, exitCalls_terminalStatus, exitCalls_runDeferred] at hcode
        simp [exitCalls, exitArg] at hcode
      · rcases hp : printFormattedStatus (terminalStatus w).1
            (w.RequestParserAndFormatter (inputReader d)).2.1 with _ | evs
        · simp only [hc, ne_eq, not_false_eq_true, if_true, hp, exitCalls_append,
            exitCalls_setup hpre, exitCalls_terminalStatus, exitCalls_runDeferred] at hcode
          simp [exitCalls, exitArg] at hcode
        · have hst := printFormattedStatus_some hp
          simp only [hc, ne_eq, not_false_eq_true, if_true, hp, exitCalls_append,
            exitCalls_setup hpre, exitCalls_terminalStatus, exitCalls_stderr hst,
            exitCalls_exit] at hcode
          simp only [exitCalls, exitArg, List.filterMap_cons, List.filterMap_nil,
            List.nil_append, List.append_nil, List.mem_singleton] at hcode
          subst hcode
          simp only [hc, ne_eq, not_false_eq_true, if_true, hp]
          rw [beforeExit_exit _ s _ (report_notOsExit w symbol _ pre evs hpre hst)]
          refine ⟨trivial, ?_, ?_, ?_⟩
          · simp
          · have := mem_reset_refClient hs
            simp [this]
          · intro c hc1
            have := mem_reset_cc (hcc c hc1)
            simp [this]
  · intro hfail
    have hP := overallTimeout_setup w.maxTime
    unfold GRPCurl
    generalize (match overallTimeout w.maxTime with
          | some timeout => [Event.withTimeout timeout]
          | none => []) = P at hP
    rcases hd : w.dialFirst with ⟨cc, _ | e⟩
    · rw [hd] at hfail
      exact absurd rfl hfail
    · simp only [dial]
      refine ⟨trivial, by simp, ?_⟩
      intro hmem
      simp only [List.mem_append, List.mem_cons, List.mem_singleton, List.not_mem_nil,
        or_false] at hmem
      rcases hmem with hmem | hmem
      · have := hP _ hmem
        simp [isSetup] at this
      · simp at hmem

theorem cleanup_paths_witness :
    ((GRPCurl okWorld "invoke" "localhost:50051" "pkg.Svc/Get" (some "null")).outcome
        = Outcome.returned ∧
      Event.resetCalled
        ∈ (GRPCurl okWorld "invoke" "localhost:50051" "pkg.Svc/Get" (some "null")).trace) ∧
    (Event.exitCalled 69
        ∈ (GRPCurl notFoundWorld "invoke" "localhost:50051" "pkg.Svc/Get" (some "null")).trace ∧
      Event.resetCalled ∈ beforeExit
        (GRPCurl notFoundWorld "invoke" "localhost:50051" "pkg.Svc/Get" (some "null")).trace) ∧
    (dialFailsWorld.dialFirst.2 ≠ none ∧
      Event.resetCalled
        ∉ (GRPCurl dialFailsWorld "list" "localhost:50051" "" none).trace) :=
  ⟨⟨by decide,
    ((cleanup_paths okWorld "invoke" "localhost:50051" "pkg.Svc/Get" (some "null")).1
      (by decide)).1⟩,
   ⟨by decide,
    ((cleanup_paths notFoundWorld "invoke" "localhost:50051" "pkg.Svc/Get" (some "null")).2.1
      69 (by decide)).2.1⟩,
   ⟨by decide,
    ((cleanup_paths dialFailsWorld "list" "localhost:50051" "" none).2.2 (by decide)).2.2⟩⟩

/-! ## Claim on the deadlines -/

/-- C10, as stated, fails: with the default `maxTime` and `connectTimeout` the
overall timeout is 30 s and the dial timeout is 30 s, so the dial timeout is not
strictly shorter than the overall one. -/
theorem default_dialTime_not_shorter :
    overallTimeout maxTime = some 30000000000 ∧
    dialTime connectTimeout = 30000000000 ∧
    ¬ (∀ d, overallTimeout maxTime = some d → dialTime connectTimeout < d) := by
  refine ⟨by decide, by decide, ?_⟩
  intro h
  have := h 30000000000 (by decide)
  revert this
  decide

/-- C10, amended: with the default configuration the overall deadline is
`maxTime` seconds, 30 s; for any `maxTime <= 0` no deadline is set, and for any
positive `maxTime` whose nanosecond count fits an `int64` the deadline is
`maxTime` seconds; the timeout applied while dialing is 30 s as well, equal to
the overall deadline, and a run of `GRPCurl` under the defaults starts by
setting these two timeouts. -/
theorem default_deadlines :
    overallTimeout maxTime = some (maxTime * time_Second) ∧
    maxTime * time_Second = 30 * 1000000000 ∧
    (∀ m : Int, m ≤ 0 → overallTimeout m = none) ∧
    (∀ m : Int, 0 < m → m ≤ 9223372036 → overallTimeout m = some (m * time_Second)) ∧
    (∀ d, overallTimeout maxTime = some d → dialTime connectTimeout = d) ∧
    (∀ (w : World) (cmd target symbol : String) (data : Option String),
      w.maxTime = maxTime → w.connectTimeout = connectTimeout →
      (GRPCurl w cmd target symbol data).trace.take 2
        = [Event.withTimeout (30 * time_Second), Event.withTimeout (30 * time_Second)]) := by
  refine ⟨by decide, by decide, ?_, ?_, ?_, ?_⟩
  · intro m hm
    simp [overallTimeout, not_lt.mpr hm]
  · intro m h0 h1
    simp only [overallTimeout, gt_iff_lt, h0, if_true, wrapInt64, time_Second]
    congr 1
    omega
  · intro d hd
    have h : overallTimeout maxTime = some 30000000000 := by decide
    rw [h] at hd
    cases hd
    rfl
  · intro w cmd target symbol data hm hc
    have h : overallTimeout maxTime = some (30 * time_Second) := by decide
    have h2 : dialTime connectTimeout = 30 * time_Second := by decide
    obtain ⟨rest, hrest⟩ := GRPCurl_trace_start w cmd target symbol data
    rw [hrest, hm, hc, h, h2]
    rfl

theorem default_deadlines_witness :
    ((0 : Int) ≤ 0 ∧ overallTimeout 0 = none) ∧
    ((0 : Int) < 2 ∧ (2 : Int) ≤ 9223372036 ∧ overallTimeout 2 = some (2 * time_Second)) ∧
    dialTime connectTimeout = 30000000000 :=
  ⟨⟨le_refl 0, default_deadlines.2.2.1 0 (le_refl 0)⟩,
   ⟨by decide, by decide, default_deadlines.2.2.2.1 2 (by decide) (by decide)⟩,
   default_deadlines.2.2.2.2.1 30000000000 (by decide)⟩

end Grpcurl
